import Mathlib

/-!
Verification of the LC-3 toolchain (assembler drafts `assemble.py` and
`lc3_assembler.py`, virtual machine / debugger core `lc3_debugger.py`).

The embedding below is a direct translation of the Python sources:

* machine words, register contents and memory cells are `Nat` with the
  masks of the source written as `% 65536` (the Python `& 0xFFFF`) or as
  the corresponding bitwise operations;
* the VM state is a record mirroring the mutable fields of
  `LC3VirtualMachine`; methods that mutate the state become functions
  `VMState → ...`;
* the unbounded `while` loops of the `PUTS`/`PUTSP` trap services are
  modelled with an explicit fuel of `2 ^ 16` (one unit per memory word,
  enough to visit every address once); running out of fuel yields `none`,
  which by the covering lemmas below happens exactly when the scan
  diverges in Python;
* the two assembler drafts are embedded separately; fatal assembly
  errors (`self.error`, which exits the process) become `none`.
-/

namespace LC3

/-- Register file indices, from `LC3VirtualMachine.__init__`:
R0..R7 are 0..7, the program counter is 8, the condition register is 9. -/
def R_PC : Nat := 8

/-- Index of the condition register COND. -/
def R_COND : Nat := 9

/-- Condition flag encodings `FL_POS, FL_ZERO, FL_NEG = 1, 2, 4`. -/
def FL_POS : Nat := 1

/-- Condition flag Z. -/
def FL_ZERO : Nat := 2

/-- Condition flag N. -/
def FL_NEG : Nat := 4

/-- Memory mapped keyboard status register address. -/
def MR_KBSR : Nat := 0xFE00

/-- Memory mapped keyboard data register address. -/
def MR_KBDR : Nat := 0xFE02

/-- Pointwise update of an array modelled as a function, the shallow
embedding of the Python assignments `self.memory[a] = v` and
`self.reg[r] = v`. -/
def setIdx (f : Nat → Nat) (i v : Nat) : Nat → Nat :=
  fun j => if j = i then v else f j

/-- The mutable state of `LC3VirtualMachine`.  `memory` is meaningful on
indices `< 2 ^ 16`; `reg` on indices `< 10`.  Characters of the input and
output buffers are their Unicode code points (Python `ord`/`chr`); the
output buffer is kept flattened to single characters, as the GUI joins it
with an empty separator (`HALT` appends the five characters of the string
HALT plus newline). -/
structure VMState where
  memory : Nat → Nat
  reg : Nat → Nat
  running : Bool
  halted : Bool
  breakpoints : List Nat
  step_mode : Bool
  output_buffer : List Nat
  input_buffer : List Nat
  wait_for_input : Bool

/-- Python method `LC3VirtualMachine.sign_extend`: sign extend a `num_bits` wide field
to 16 bits. -/
def sign_extend (x num_bits : Nat) : Nat :=
  if (x >>> (num_bits - 1)) &&& 1 = 1 then (x ||| (0xFFFF <<< num_bits)) &&& 0xFFFF
  else x &&& 0xFFFF

/-- The condition flag `LC3VirtualMachine.update_flags` computes from a
register value: Z when zero, N when any bit from 15 upwards is set
(Python `self.reg[r] >> 15` used as a truth value), P otherwise. -/
def flagOf (v : Nat) : Nat :=
  if v = 0 then FL_ZERO else if v >>> 15 ≠ 0 then FL_NEG else FL_POS

/-- Python method `LC3VirtualMachine.update_flags`: store the flag of register `r` into
COND. -/
def update_flags (reg : Nat → Nat) (r : Nat) : Nat → Nat :=
  setIdx reg R_COND (flagOf (reg r))

/-- The sign classification exactly as the specification words it: N if
bit 15 of the value is set, Z if the value is zero, P otherwise. -/
def specClass (v : Nat) : Nat :=
  if v = 0 then FL_ZERO else if (v >>> 15) &&& 1 = 1 then FL_NEG else FL_POS

/-- Python method `LC3VirtualMachine.mem_read`: a read of KBSR consults the input
buffer, dequeuing one character into KBDR and setting the high bit of
KBSR when non-empty, clearing KBSR otherwise; then (like every other
read) the masked address is returned from memory. -/
def mem_read (s : VMState) (address : Nat) : VMState × Nat :=
  let a := address % 65536
  if a = MR_KBSR then
    match s.input_buffer with
    | c :: rest =>
        let m := setIdx (setIdx s.memory MR_KBSR (1 <<< 15)) MR_KBDR c
        ({ s with memory := m, input_buffer := rest }, m a)
    | [] =>
        let m := setIdx s.memory MR_KBSR 0
        ({ s with memory := m }, m a)
  else (s, s.memory a)

/-- Python method `LC3VirtualMachine.mem_write`: mask the address and the value to 16
bits and store. -/
def mem_write (s : VMState) (address val : Nat) : VMState :=
  { s with memory := setIdx s.memory (address % 65536) (val % 65536) }

/-- Python method `LC3VirtualMachine.reset`: zero memory and registers, COND = Z,
PC = 0x3000, clear the run/halt/wait flags and both buffers.  The
breakpoint set and the step mode are not touched. -/
def reset (s : VMState) : VMState :=
  { s with
    memory := fun _ => 0
    reg := setIdx (setIdx (fun _ => 0) R_COND FL_ZERO) R_PC 0x3000
    running := false
    halted := false
    output_buffer := []
    input_buffer := []
    wait_for_input := false }

/-- Big-endian 16-bit words of a byte list, `struct.unpack` pairs in
`load_program`; a trailing odd byte is dropped (`len(program_data) // 2`). -/
def bytesToWords : List Nat → List Nat
  | b1 :: b2 :: rest => (b1 * 256 + b2) :: bytesToWords rest
  | _ => []

/-- The loading loop of `load_program`: store word `i` at `origin + i`,
stopping at the address space boundary (`if origin + i >= self.MAX_MEMORY:
break`). -/
def loadWords : (Nat → Nat) → Nat → Nat → List Nat → (Nat → Nat)
  | mem, _, _, [] => mem
  | mem, origin, i, w :: rest =>
    if 65536 ≤ origin + i then mem
    else loadWords (setIdx mem (origin + i) w) origin (i + 1) rest

/-- Python method `LC3VirtualMachine.load_program`: fewer than two bytes is a failure
returning `False`; otherwise the first two bytes are the big-endian
origin, the following byte pairs are loaded from the origin upwards and
PC is set to the origin. -/
def load_program (s : VMState) (data : List Nat) : VMState × Bool :=
  match data with
  | b0 :: b1 :: rest =>
      let origin := b0 * 256 + b1
      ({ s with
          memory := loadWords s.memory origin 0 (bytesToWords rest)
          reg := setIdx s.reg R_PC origin }, true)
  | _ => (s, false)

/-- Python method `LC3VirtualMachine._execute_br`. -/
def execute_br (s : VMState) (instr : Nat) : VMState :=
  let pc_offset := sign_extend (instr &&& 0x1FF) 9
  let condition_flag := (instr >>> 9) &&& 7
  if s.reg R_COND &&& condition_flag ≠ 0 then
    { s with reg := setIdx s.reg R_PC ((s.reg R_PC + pc_offset) % 65536) }
  else s

/-- Python method `LC3VirtualMachine._execute_add`. -/
def execute_add (s : VMState) (instr : Nat) : VMState :=
  let r0 := (instr >>> 9) &&& 7
  let r1 := (instr >>> 6) &&& 7
  let imm_flag := (instr >>> 5) &&& 1
  let reg1 :=
    if imm_flag = 1 then
      setIdx s.reg r0 ((s.reg r1 + sign_extend (instr &&& 0x1F) 5) % 65536)
    else
      setIdx s.reg r0 ((s.reg r1 + s.reg (instr &&& 7)) % 65536)
  { s with reg := update_flags reg1 r0 }

/-- Python method `LC3VirtualMachine._execute_ld`. -/
def execute_ld (s : VMState) (instr : Nat) : VMState :=
  let r0 := (instr >>> 9) &&& 7
  let pc_offset := sign_extend (instr &&& 0x1FF) 9
  let p := mem_read s ((s.reg R_PC + pc_offset) % 65536)
  { p.1 with reg := update_flags (setIdx p.1.reg r0 p.2) r0 }

/-- Python method `LC3VirtualMachine._execute_st`. -/
def execute_st (s : VMState) (instr : Nat) : VMState :=
  let r0 := (instr >>> 9) &&& 7
  let pc_offset := sign_extend (instr &&& 0x1FF) 9
  mem_write s ((s.reg R_PC + pc_offset) % 65536) (s.reg r0)

/-- Python method `LC3VirtualMachine._execute_jsr`: R7 receives the (incremented) PC
first, then PC is replaced; condition flags are not updated. -/
def execute_jsr (s : VMState) (instr : Nat) : VMState :=
  let flag := (instr >>> 11) &&& 1
  let reg1 := setIdx s.reg 7 (s.reg R_PC)
  let reg2 :=
    if flag = 1 then
      setIdx reg1 R_PC ((reg1 R_PC + sign_extend (instr &&& 0x7FF) 11) % 65536)
    else
      setIdx reg1 R_PC (reg1 ((instr >>> 6) &&& 7))
  { s with reg := reg2 }

/-- Python method `LC3VirtualMachine._execute_and`. -/
def execute_and (s : VMState) (instr : Nat) : VMState :=
  let r0 := (instr >>> 9) &&& 7
  let r1 := (instr >>> 6) &&& 7
  let imm_flag := (instr >>> 5) &&& 1
  let reg1 :=
    if imm_flag = 1 then
      setIdx s.reg r0 ((s.reg r1 &&& sign_extend (instr &&& 0x1F) 5) % 65536)
    else
      setIdx s.reg r0 ((s.reg r1 &&& s.reg (instr &&& 7)) % 65536)
  { s with reg := update_flags reg1 r0 }

/-- Python method `LC3VirtualMachine._execute_ldr`. -/
def execute_ldr (s : VMState) (instr : Nat) : VMState :=
  let r0 := (instr >>> 9) &&& 7
  let r1 := (instr >>> 6) &&& 7
  let offset := sign_extend (instr &&& 0x3F) 6
  let p := mem_read s ((s.reg r1 + offset) % 65536)
  { p.1 with reg := update_flags (setIdx p.1.reg r0 p.2) r0 }

/-- Python method `LC3VirtualMachine._execute_str`. -/
def execute_str (s : VMState) (instr : Nat) : VMState :=
  let r0 := (instr >>> 9) &&& 7
  let r1 := (instr >>> 6) &&& 7
  let offset := sign_extend (instr &&& 0x3F) 6
  mem_write s ((s.reg r1 + offset) % 65536) (s.reg r0)

/-- Python method `LC3VirtualMachine._execute_not`.  The Python expression
`(~x) & 0xFFFF` on an arbitrary non-negative int equals
`65535 - x % 65536`. -/
def execute_not (s : VMState) (instr : Nat) : VMState :=
  let r0 := (instr >>> 9) &&& 7
  let r1 := (instr >>> 6) &&& 7
  { s with reg := update_flags (setIdx s.reg r0 (65535 - s.reg r1 % 65536)) r0 }

/-- Python method `LC3VirtualMachine._execute_ldi`: two chained memory reads, each with
the memory-mapped I/O handling. -/
def execute_ldi (s : VMState) (instr : Nat) : VMState :=
  let r0 := (instr >>> 9) &&& 7
  let pc_offset := sign_extend (instr &&& 0x1FF) 9
  let p1 := mem_read s ((s.reg R_PC + pc_offset) % 65536)
  let p2 := mem_read p1.1 p1.2
  { p2.1 with reg := update_flags (setIdx p2.1.reg r0 p2.2) r0 }

/-- Python method `LC3VirtualMachine._execute_sti`. -/
def execute_sti (s : VMState) (instr : Nat) : VMState :=
  let r0 := (instr >>> 9) &&& 7
  let pc_offset := sign_extend (instr &&& 0x1FF) 9
  let p1 := mem_read s ((s.reg R_PC + pc_offset) % 65536)
  mem_write p1.1 p1.2 (p1.1.reg r0)

/-- Python method `LC3VirtualMachine._execute_jmp`. -/
def execute_jmp (s : VMState) (instr : Nat) : VMState :=
  { s with reg := setIdx s.reg R_PC (s.reg ((instr >>> 6) &&& 7)) }

/-- Python method `LC3VirtualMachine._execute_lea`. -/
def execute_lea (s : VMState) (instr : Nat) : VMState :=
  let r0 := (instr >>> 9) &&& 7
  let pc_offset := sign_extend (instr &&& 0x1FF) 9
  { s with reg := update_flags (setIdx s.reg r0 ((s.reg R_PC + pc_offset) % 65536)) r0 }

/-- Outcome of `LC3VirtualMachine._execute_trap`: normal continuation
(Python `True`), halt (Python `False`), or the `WAIT_FOR_INPUT` marker. -/
inductive TrapResult where
  | cont
  | halt
  | waitInput
deriving DecidableEq

/-- The `PUTS` loop: characters (low bytes) of the words from `addr` up
to the first zero word, the address wrapping modulo `2 ^ 16`.  `none`
when the fuel runs out before a zero word is found.  The first access is
at the unmasked `addr`, as in the source (`addr = self.reg[R0]`); callers
establish `addr < 65536`, which Python needs anyway to avoid an
`IndexError`. -/
def putsScan (mem : Nat → Nat) : Nat → Nat → Option (List Nat)
  | _, 0 => none
  | addr, fuel + 1 =>
    if mem addr = 0 then some []
    else Option.map (fun out => (mem addr &&& 0xFF) :: out)
      (putsScan mem ((addr + 1) % 65536) fuel)

/-- The `PUTSP` loop: per non-zero word the low byte then the high byte,
each appended only when non-zero (`if char1:` / `if char2:`), stopping at
the first zero word. -/
def putspScan (mem : Nat → Nat) : Nat → Nat → Option (List Nat)
  | _, 0 => none
  | addr, fuel + 1 =>
    if mem addr = 0 then some []
    else
      let char1 := mem addr &&& 0xFF
      let char2 := (mem addr >>> 8) &&& 0xFF
      Option.map (fun out =>
          ((if char1 ≠ 0 then [char1] else []) ++ (if char2 ≠ 0 then [char2] else [])) ++ out)
        (putspScan mem ((addr + 1) % 65536) fuel)

/-- Python method `LC3VirtualMachine._execute_trap`: R7 always receives the current
(incremented) PC first; then the trap vector `instr & 0xFF` dispatches.
An unknown vector falls through to a normal continuation. -/
def execute_trap (s : VMState) (instr : Nat) : Option (VMState × TrapResult) :=
  let s7 : VMState := { s with reg := setIdx s.reg 7 (s.reg R_PC) }
  let trap_code := instr &&& 0xFF
  if trap_code = 0x20 then
    match s7.input_buffer with
    | c :: rest =>
        some ({ s7 with reg := update_flags (setIdx s7.reg 0 c) 0, input_buffer := rest },
          TrapResult.cont)
    | [] => some (s7, TrapResult.waitInput)
  else if trap_code = 0x21 then
    some ({ s7 with output_buffer := s7.output_buffer ++ [s7.reg 0 &&& 0xFF] }, TrapResult.cont)
  else if trap_code = 0x22 then
    match putsScan s7.memory (s7.reg 0) 65536 with
    | none => none
    | some out => some ({ s7 with output_buffer := s7.output_buffer ++ out }, TrapResult.cont)
  else if trap_code = 0x23 then
    match s7.input_buffer with
    | c :: rest =>
        some ({ s7 with
          reg := update_flags (setIdx s7.reg 0 c) 0
          input_buffer := rest
          output_buffer := s7.output_buffer ++ [c] }, TrapResult.cont)
    | [] => some (s7, TrapResult.waitInput)
  else if trap_code = 0x24 then
    match putspScan s7.memory (s7.reg 0) 65536 with
    | none => none
    | some out => some ({ s7 with output_buffer := s7.output_buffer ++ out }, TrapResult.cont)
  else if trap_code = 0x25 then
    some ({ s7 with output_buffer := s7.output_buffer ++ [72, 65, 76, 84, 10] }, TrapResult.halt)
  else some (s7, TrapResult.cont)

/-- Python method `LC3VirtualMachine.step`: one fetch-decode-execute round.  The `Bool`
is the Python return value (`True` to continue).  `none` records a
diverging `PUTS`/`PUTSP` scan (no zero word in memory), where the Python
loop never returns.  The Python subtraction `(pc - 1) & 0xFFFF` on the
wait-for-input path is `(pc + 65535) % 65536` on `Nat`. -/
def step (s : VMState) : Option (VMState × Bool) :=
  if s.halted || s.wait_for_input then some (s, false)
  else if s.breakpoints.contains (s.reg R_PC) && !s.step_mode then some (s, false)
  else
    let p := mem_read s (s.reg R_PC)
    let s2 : VMState := { p.1 with reg := setIdx p.1.reg R_PC ((p.1.reg R_PC + 1) % 65536) }
    let instr := p.2
    let op := instr >>> 12
    if op = 0 then some (execute_br s2 instr, true)
    else if op = 1 then some (execute_add s2 instr, true)
    else if op = 2 then some (execute_ld s2 instr, true)
    else if op = 3 then some (execute_st s2 instr, true)
    else if op = 4 then some (execute_jsr s2 instr, true)
    else if op = 5 then some (execute_and s2 instr, true)
    else if op = 6 then some (execute_ldr s2 instr, true)
    else if op = 7 then some (execute_str s2 instr, true)
    else if op = 9 then some (execute_not s2 instr, true)
    else if op = 10 then some (execute_ldi s2 instr, true)
    else if op = 11 then some (execute_sti s2 instr, true)
    else if op = 12 then some (execute_jmp s2 instr, true)
    else if op = 14 then some (execute_lea s2 instr, true)
    else if op = 15 then
      match execute_trap s2 instr with
      | none => none
      | some (s3, TrapResult.waitInput) =>
          some ({ s3 with
            wait_for_input := true
            reg := setIdx s3.reg R_PC ((s3.reg R_PC + 65535) % 65536) }, false)
      | some (s3, TrapResult.halt) => some ({ s3 with halted := true }, false)
      | some (s3, TrapResult.cont) => some (s3, true)
    else some (s2, true)

/-! ## Assembler draft 1: `assemble.py` (`LC3Assembler`)

Operands reaching an encoder are either a register number or a resolved
numeric value (`is_register` dispatch / symbol-table lookup /
`parse_immediate` in the source).  A fatal `self.error` (which prints and
exits) is `none`. -/

/-- A dispatched operand: the source decides register vs immediate by
string inspection (`is_register`), and resolves labels through the symbol
table before range checking. -/
inductive Operand where
  | register (n : Nat)
  | immediate (v : Int)

/-- Python method `LC3Assembler.check_range`: does `value` fit in `bits` bits. -/
def check_range (value : Int) (bits : Nat) (signed : Bool) : Bool :=
  if signed then
    decide (-((2 : Int) ^ (bits - 1)) ≤ value) && decide (value ≤ (2 : Int) ^ (bits - 1) - 1)
  else
    decide ((0 : Int) ≤ value) && decide (value ≤ (2 : Int) ^ bits - 1)

/-- Python `s.upper()`: uppercase every character. -/
def strUpper (s : String) : String := ⟨s.data.map Char.toUpper⟩

/-- Python `c in s` for a single character. -/
def strContains (s : String) (c : Char) : Bool := s.data.contains c

/-- Python method `LC3Assembler.assemble_br` with the branch target already resolved to
the offset value (symbol-table lookup or `parse_immediate`): uppercase
the mnemonic, read the condition letters, default to NZP when none is
present, range check the 9-bit offset, and encode.  The Python
`offset & 0x1FF` on a possibly negative int is `(offset % 512).toNat`. -/
def assemble_br (mnemonic : String) (offset : Int) : Option Nat :=
  let instr := strUpper mnemonic
  let n0 : Nat := if strContains instr 'N' then 1 else 0
  let z0 : Nat := if strContains instr 'Z' then 1 else 0
  let p0 : Nat := if strContains instr 'P' then 1 else 0
  let dflt := n0 = 0 ∧ z0 = 0 ∧ p0 = 0
  let n := if dflt then 1 else n0
  let z := if dflt then 1 else z0
  let p := if dflt then 1 else p0
  if check_range offset 9 true then
    some ((0 <<< 12) ||| (n <<< 11) ||| (z <<< 10) ||| (p <<< 9) ||| (offset % 512).toNat)
  else none

/-- Python method `LC3Assembler.assemble_add`: register mode encodes directly,
immediate mode range checks the 5-bit field (`imm & 0x1F` is
`(imm % 32).toNat`). -/
def assemble_add (dr sr1 : Nat) (op3 : Operand) : Option Nat :=
  match op3 with
  | Operand.register sr2 => some ((1 <<< 12) ||| (dr <<< 9) ||| (sr1 <<< 6) ||| sr2)
  | Operand.immediate imm =>
      if check_range imm 5 true then
        some ((1 <<< 12) ||| (dr <<< 9) ||| (sr1 <<< 6) ||| (1 <<< 5) ||| (imm % 32).toNat)
      else none

/-- Python method `LC3Assembler.assemble_and`, identical to `assemble_add` except for
the opcode nibble. -/
def assemble_and (dr sr1 : Nat) (op3 : Operand) : Option Nat :=
  match op3 with
  | Operand.register sr2 => some ((5 <<< 12) ||| (dr <<< 9) ||| (sr1 <<< 6) ||| sr2)
  | Operand.immediate imm =>
      if check_range imm 5 true then
        some ((5 <<< 12) ||| (dr <<< 9) ||| (sr1 <<< 6) ||| (1 <<< 5) ||| (imm % 32).toNat)
      else none

/-! ## Assembler draft 2: `lc3_assembler.py` -/

/-- Helper `to_twos_complement` of draft 2: add `2 ^ bits` to a negative value,
then mask (`val & ((1 << bits) - 1)`, which on Python ints is
`val mod 2 ^ bits`). -/
def to_twos_complement (val : Int) (bits : Nat) : Nat :=
  ((if val < 0 then (2 : Int) ^ bits + val else val) % (2 : Int) ^ bits).toNat

/-- The `BR` arm of draft 2 `assemble_line`: condition bits come from the
lowercase letters of the opcode as passed in, no default is applied, and
the offset is `labels[label] - (pc + 1)` in twos complement.  (The
driver `assemble` uppercases opcodes before this call.) -/
def assembleLine2Br (opcode : String) (labelAddr pc : Nat) : Nat :=
  let cond := (if strContains opcode 'n' then 4 else 0) |||
    (if strContains opcode 'z' then 2 else 0) ||| (if strContains opcode 'p' then 1 else 0)
  (0 <<< 12) ||| (cond <<< 9) ||| to_twos_complement ((labelAddr : Int) - ((pc : Int) + 1)) 9

/-- The `ADD`/`AND` arm of draft 2 `assemble_line` (`sr2.startswith("R")`
dispatch): immediate mode applies `to_twos_complement _ 5` with no range
check at all. -/
def assembleLine2AddAnd (opcode : String) (dr sr1 : Nat) (op3 : Operand) : Nat :=
  match op3 with
  | Operand.register sr2 =>
      ((if opcode = "ADD" then 1 else 5) <<< 12) ||| (dr <<< 9) ||| (sr1 <<< 6) ||| sr2
  | Operand.immediate v =>
      ((if opcode = "ADD" then 1 else 5) <<< 12) ||| (dr <<< 9) ||| (sr1 <<< 6) ||| (1 <<< 5) |||
        to_twos_complement v 5

/-- The PUTSP emission rule exactly as claim C6 words it: every non-zero
word appends its low byte then its high byte, with the single exception
that a word whose high byte is the only set byte emits exactly one byte.
Stated for comparison against `putspScan`, which is the code. -/
def putspClaimScan (mem : Nat → Nat) : Nat → Nat → Option (List Nat)
  | _, 0 => none
  | addr, fuel + 1 =>
    if mem addr = 0 then some []
    else
      let lo := mem addr &&& 0xFF
      let hi := (mem addr >>> 8) &&& 0xFF
      Option.map (fun out => (if lo = 0 ∧ hi ≠ 0 then [hi] else [lo, hi]) ++ out)
        (putspClaimScan mem ((addr + 1) % 65536) fuel)

/-! ## Basic lemmas -/

theorem setIdx_self (f : Nat → Nat) (i v : Nat) : setIdx f i v i = v := by
  simp [setIdx]

theorem setIdx_ne (f : Nat → Nat) (i v j : Nat) (h : j ≠ i) : setIdx f i v j = f j := by
  simp [setIdx, h]

theorem flagOf_cases (v : Nat) : flagOf v = 1 ∨ flagOf v = 2 ∨ flagOf v = 4 := by
  unfold flagOf FL_POS FL_ZERO FL_NEG
  split
  · exact Or.inr (Or.inl rfl)
  · split
    · exact Or.inr (Or.inr rfl)
    · exact Or.inl rfl

theorem flagOf_eq_specClass (v : Nat) (h : v < 65536) : flagOf v = specClass v := by
  unfold flagOf specClass
  have hs : v >>> 15 = v / 32768 := by
    rw [Nat.shiftRight_eq_div_pow]
  have h1 : (v >>> 15) &&& 1 = v >>> 15 % 2 := Nat.and_one_is_mod (v >>> 15)
  rcases Nat.lt_or_ge v 32768 with hv | hv
  · have : v >>> 15 = 0 := by omega
    simp [this]
  · have : v >>> 15 = 1 := by omega
    simp [this]

theorem and7_le (x : Nat) : x &&& 7 ≤ 7 := Nat.and_le_right

/-! ## Claim C7: reset -/

/-- Claim C7: `reset` zeroes all memory words and general registers, sets
COND to Z and PC to 0x3000, clears the halted and wait-for-input flags
and both I/O buffers, and leaves the breakpoint set untouched. -/
theorem claim_C7 (s : VMState) :
    (∀ a, (reset s).memory a = 0) ∧
    (∀ i, i < 8 → (reset s).reg i = 0) ∧
    (reset s).reg R_COND = FL_ZERO ∧
    (reset s).reg R_PC = 0x3000 ∧
    (reset s).halted = false ∧
    (reset s).wait_for_input = false ∧
    (reset s).input_buffer = [] ∧
    (reset s).output_buffer = [] ∧
    (reset s).breakpoints = s.breakpoints := by
  unfold reset
  refine ⟨fun a => rfl, fun i hi => ?_, ?_, ?_, rfl, rfl, rfl, rfl, rfl⟩
  · have h8 : i ≠ 8 := by omega
    have h9 : i ≠ 9 := by omega
    simp only [setIdx, R_PC, R_COND]
    rw [if_neg h8, if_neg h9]
  · simp [setIdx, R_PC, R_COND]
  · simp [setIdx, R_PC, R_COND]

/-- A fully scrambled state exercising every field `reset` must restore
or preserve. -/
def csScrambled : VMState :=
  { memory := fun _ => 7
    reg := fun _ => 7
    running := true
    halted := true
    breakpoints := [5, 99]
    step_mode := true
    output_buffer := [1]
    input_buffer := [2]
    wait_for_input := true }

theorem claim_C7_witness :
    (reset csScrambled).reg 3 = 0 ∧ (reset csScrambled).breakpoints = [5, 99] :=
  ⟨(claim_C7 csScrambled).2.1 3 (by decide), (claim_C7 csScrambled).2.2.2.2.2.2.2.2⟩

/-! ## Claim C8: write-read round trip -/

/-- Claim C8: for a 16-bit address other than KBSR and KBDR, a
`mem_write` followed by a `mem_read` of the same address yields the value
masked to 16 bits. -/
theorem claim_C8 (s : VMState) (a v : Nat) (h1 : a < 65536) (h2 : a ≠ MR_KBSR)
    (h3 : a ≠ MR_KBDR) :
    (mem_read (mem_write s a v) a).2 = v % 65536 := by
  unfold mem_write mem_read
  have ha : a % 65536 = a := Nat.mod_eq_of_lt h1
  simp only [ha, h2, if_neg h2]
  exact setIdx_self s.memory a (v % 65536)

theorem claim_C8_witness :
    (mem_read (mem_write csScrambled 500 70000) 500).2 = 70000 % 65536 :=
  claim_C8 csScrambled 500 70000 (by decide) (by decide) (by decide)

/-! ## Claim C1: condition flags after register writes -/

theorem update_flags_spec (b : Nat → Nat) (r0 v : Nat) (h : r0 ≠ R_COND) :
    update_flags (setIdx b r0 v) r0 R_COND = flagOf v ∧
    update_flags (setIdx b r0 v) r0 r0 = v := by
  unfold update_flags
  constructor
  · rw [setIdx_self, setIdx_self]
  · rw [setIdx_ne _ _ _ _ h, setIdx_self]

theorem and7_ne_cond (x : Nat) : x &&& 7 ≠ R_COND := by
  have := and7_le x
  unfold R_COND
  omega

/-- Common shape of every flag-updating destination write: COND afterward
is the flag of the value just written. -/
theorem update_flags_cond (b : Nat → Nat) (r0 v : Nat) (h : r0 ≠ R_COND) :
    update_flags (setIdx b r0 v) r0 R_COND = flagOf (update_flags (setIdx b r0 v) r0 r0) := by
  rw [(update_flags_spec b r0 v h).1, (update_flags_spec b r0 v h).2]

theorem execute_add_cond (s : VMState) (instr : Nat) :
    (execute_add s instr).reg R_COND
      = flagOf ((execute_add s instr).reg ((instr >>> 9) &&& 7)) := by
  unfold execute_add
  by_cases hf : (instr >>> 5) &&& 1 = 1 <;>
    simp only [hf, if_true, if_false, reduceIte] <;>
    exact update_flags_cond _ _ _ (and7_ne_cond (instr >>> 9))

theorem execute_and_cond (s : VMState) (instr : Nat) :
    (execute_and s instr).reg R_COND
      = flagOf ((execute_and s instr).reg ((instr >>> 9) &&& 7)) := by
  unfold execute_and
  by_cases hf : (instr >>> 5) &&& 1 = 1 <;>
    simp only [hf, if_true, if_false, reduceIte] <;>
    exact update_flags_cond _ _ _ (and7_ne_cond (instr >>> 9))

theorem execute_not_cond (s : VMState) (instr : Nat) :
    (execute_not s instr).reg R_COND
      = flagOf ((execute_not s instr).reg ((instr >>> 9) &&& 7)) := by
  unfold execute_not
  exact update_flags_cond _ _ _ (and7_ne_cond (instr >>> 9))

theorem execute_ld_cond (s : VMState) (instr : Nat) :
    (execute_ld s instr).reg R_COND
      = flagOf ((execute_ld s instr).reg ((instr >>> 9) &&& 7)) := by
  unfold execute_ld
  exact update_flags_cond _ _ _ (and7_ne_cond (instr >>> 9))

theorem execute_ldr_cond (s : VMState) (instr : Nat) :
    (execute_ldr s instr).reg R_COND
      = flagOf ((execute_ldr s instr).reg ((instr >>> 9) &&& 7)) := by
  unfold execute_ldr
  exact update_flags_cond _ _ _ (and7_ne_cond (instr >>> 9))

theorem execute_ldi_cond (s : VMState) (instr : Nat) :
    (execute_ldi s instr).reg R_COND
      = flagOf ((execute_ldi s instr).reg ((instr >>> 9) &&& 7)) := by
  unfold execute_ldi
  exact update_flags_cond _ _ _ (and7_ne_cond (instr >>> 9))

theorem execute_lea_cond (s : VMState) (instr : Nat) :
    (execute_lea s instr).reg R_COND
      = flagOf ((execute_lea s instr).reg ((instr >>> 9) &&& 7)) := by
  unfold execute_lea
  exact update_flags_cond _ _ _ (and7_ne_cond (instr >>> 9))

theorem execute_jsr_frame (s : VMState) (instr : Nat) :
    (execute_jsr s instr).reg 7 = s.reg R_PC ∧
    (execute_jsr s instr).reg R_COND = s.reg R_COND := by
  have h78 : (7 : Nat) ≠ R_PC := by decide
  have h98 : R_COND ≠ R_PC := by decide
  have h97 : R_COND ≠ 7 := by decide
  simp only [execute_jsr]
  by_cases hf : (instr >>> 11) &&& 1 = 1
  · rw [if_pos hf]
    exact ⟨by rw [setIdx_ne _ _ _ _ h78, setIdx_self],
      by rw [setIdx_ne _ _ _ _ h98, setIdx_ne _ _ _ _ h97]⟩
  · rw [if_neg hf]
    exact ⟨by rw [setIdx_ne _ _ _ _ h78, setIdx_self],
      by rw [setIdx_ne _ _ _ _ h98, setIdx_ne _ _ _ _ h97]⟩

theorem execute_trap_out (s : VMState) :
    ∃ s2, execute_trap s 0xF021 = some (s2, TrapResult.cont) ∧
      s2.reg 7 = s.reg R_PC ∧ s2.reg R_COND = s.reg R_COND := by
  have h : execute_trap s 0xF021 = some ({ s with
      reg := setIdx s.reg 7 (s.reg R_PC)
      output_buffer := s.output_buffer ++ [setIdx s.reg 7 (s.reg R_PC) 0 &&& 0xFF] },
    TrapResult.cont) := by
    have h34 : (0xF021 : Nat) &&& 0xFF = 0x21 := by decide
    simp only [execute_trap]
    rw [h34]
    norm_num
  exact ⟨_, h, setIdx_self s.reg 7 (s.reg R_PC),
    setIdx_ne s.reg 7 (s.reg R_PC) R_COND (by decide)⟩

/-- Claim C1 (amended): the instructions that write a general register
through `update_flags` (ADD, AND, NOT, LD, LDR, LDI, LEA) leave COND
holding exactly the `update_flags` classification of the destination
register value, one of {N, Z, P}; for 16-bit values that classification
is precisely the claimed one (N iff bit 15 set, Z iff zero, else P).
JSR/JSRR writing R7 and TRAP saving the return address into R7 do not
touch COND. -/
theorem claim_C1_theorem :
    (∀ s instr, (execute_add s instr).reg R_COND
      = flagOf ((execute_add s instr).reg ((instr >>> 9) &&& 7))) ∧
    (∀ s instr, (execute_and s instr).reg R_COND
      = flagOf ((execute_and s instr).reg ((instr >>> 9) &&& 7))) ∧
    (∀ s instr, (execute_not s instr).reg R_COND
      = flagOf ((execute_not s instr).reg ((instr >>> 9) &&& 7))) ∧
    (∀ s instr, (execute_ld s instr).reg R_COND
      = flagOf ((execute_ld s instr).reg ((instr >>> 9) &&& 7))) ∧
    (∀ s instr, (execute_ldr s instr).reg R_COND
      = flagOf ((execute_ldr s instr).reg ((instr >>> 9) &&& 7))) ∧
    (∀ s instr, (execute_ldi s instr).reg R_COND
      = flagOf ((execute_ldi s instr).reg ((instr >>> 9) &&& 7))) ∧
    (∀ s instr, (execute_lea s instr).reg R_COND
      = flagOf ((execute_lea s instr).reg ((instr >>> 9) &&& 7))) ∧
    (∀ v, flagOf v = 1 ∨ flagOf v = 2 ∨ flagOf v = 4) ∧
    (∀ v, v < 65536 → flagOf v = specClass v) ∧
    (∀ s instr, (execute_jsr s instr).reg 7 = s.reg R_PC ∧
      (execute_jsr s instr).reg R_COND = s.reg R_COND) ∧
    (∀ s, ∃ s2, execute_trap s 0xF021 = some (s2, TrapResult.cont) ∧
      s2.reg 7 = s.reg R_PC ∧ s2.reg R_COND = s.reg R_COND) :=
  ⟨execute_add_cond, execute_and_cond, execute_not_cond, execute_ld_cond,
    execute_ldr_cond, execute_ldi_cond, execute_lea_cond, flagOf_cases,
    flagOf_eq_specClass, execute_jsr_frame, execute_trap_out⟩

/-- The all-zero quiescent state. -/
def baseState : VMState :=
  { memory := fun _ => 0
    reg := fun _ => 0
    running := false
    halted := false
    breakpoints := []
    step_mode := false
    output_buffer := []
    input_buffer := []
    wait_for_input := false }

theorem claim_C1_witness :
    (execute_add csScrambled 4133).reg R_COND
      = flagOf ((execute_add csScrambled 4133).reg ((4133 >>> 9) &&& 7)) ∧
    flagOf 65535 = specClass 65535 :=
  ⟨claim_C1_theorem.1 csScrambled 4133,
    claim_C1_theorem.2.2.2.2.2.2.2.2.1 65535 (by decide)⟩

/-- A state about to execute `JSR #1` (word 0x4801) at 0x3000 with
COND = Z. -/
def csJsr : VMState :=
  { baseState with
    memory := fun i => if i = 0x3000 then 0x4801 else 0
    reg := fun i => if i = 8 then 0x3000 else if i = 9 then 2 else 0 }

/-- Claim C1 fails as stated: stepping `csJsr` executes JSR, which writes
R7 = 0x3001 (a positive 16-bit value) but leaves COND = Z, so COND does
not match the sign classification of the new R7 value. -/
theorem claim_C1_counterexample :
    (step csJsr).map (fun p => (p.1.reg 7, p.1.reg R_COND, p.2))
      = some (0x3001, FL_ZERO, true) ∧
    specClass 0x3001 ≠ FL_ZERO := by
  decide

/-! ## Claim C2: reads of KBSR and of other addresses -/

theorem mem_read_other (s : VMState) (a : Nat) (h1 : a < 65536) (h2 : a ≠ MR_KBSR) :
    mem_read s a = (s, s.memory a) := by
  unfold mem_read
  rw [Nat.mod_eq_of_lt h1, if_neg h2]

theorem mem_read_kbsr_cons (s : VMState) (c : Nat) (rest : List Nat)
    (hbuf : s.input_buffer = c :: rest) :
    mem_read s MR_KBSR =
      ({ s with
          memory := setIdx (setIdx s.memory MR_KBSR (1 <<< 15)) MR_KBDR c
          input_buffer := rest },
        setIdx (setIdx s.memory MR_KBSR (1 <<< 15)) MR_KBDR c MR_KBSR) := by
  have hmod : MR_KBSR % 65536 = MR_KBSR := by decide
  unfold mem_read
  rw [hmod, if_pos rfl, hbuf]

theorem mem_read_kbsr_nil (s : VMState) (hbuf : s.input_buffer = []) :
    mem_read s MR_KBSR =
      ({ s with memory := setIdx s.memory MR_KBSR 0 }, setIdx s.memory MR_KBSR 0 MR_KBSR) := by
  have hmod : MR_KBSR % 65536 = MR_KBSR := by decide
  unfold mem_read
  rw [hmod, if_pos rfl, hbuf]

/-- Claim C2: a read of KBSR with pending input dequeues the front
character into KBDR and sets KBSR to 0x8000 (bit 15), returning that
value; with no pending input it clears KBSR to 0 and returns 0; a read of
any other 16-bit address (KBDR included) just returns the memory word
with no side effect. -/
theorem claim_C2 (s : VMState) :
    (∀ c rest, s.input_buffer = c :: rest →
      (mem_read s MR_KBSR).2 = 32768 ∧
      (mem_read s MR_KBSR).1.memory MR_KBSR = 32768 ∧
      (mem_read s MR_KBSR).1.memory MR_KBDR = c ∧
      (mem_read s MR_KBSR).1.input_buffer = rest ∧
      (∀ j, j ≠ MR_KBSR → j ≠ MR_KBDR → (mem_read s MR_KBSR).1.memory j = s.memory j)) ∧
    (s.input_buffer = [] →
      (mem_read s MR_KBSR).2 = 0 ∧
      (mem_read s MR_KBSR).1.memory MR_KBSR = 0 ∧
      (∀ j, j ≠ MR_KBSR → (mem_read s MR_KBSR).1.memory j = s.memory j)) ∧
    (∀ a, a < 65536 → a ≠ MR_KBSR → mem_read s a = (s, s.memory a)) := by
  have hne : MR_KBSR ≠ MR_KBDR := by decide
  refine ⟨?_, ?_, fun a h1 h2 => mem_read_other s a h1 h2⟩
  · intro c rest hbuf
    rw [mem_read_kbsr_cons s c rest hbuf]
    refine ⟨?_, ?_, ?_, rfl, ?_⟩
    · show setIdx (setIdx s.memory MR_KBSR (1 <<< 15)) MR_KBDR c MR_KBSR = 32768
      rw [setIdx_ne _ _ _ _ hne, setIdx_self]
      decide
    · show setIdx (setIdx s.memory MR_KBSR (1 <<< 15)) MR_KBDR c MR_KBSR = 32768
      rw [setIdx_ne _ _ _ _ hne, setIdx_self]
      decide
    · show setIdx (setIdx s.memory MR_KBSR (1 <<< 15)) MR_KBDR c MR_KBDR = c
      rw [setIdx_self]
    · intro j hj1 hj2
      show setIdx (setIdx s.memory MR_KBSR (1 <<< 15)) MR_KBDR c j = s.memory j
      rw [setIdx_ne _ _ _ _ hj2, setIdx_ne _ _ _ _ hj1]
  · intro hbuf
    rw [mem_read_kbsr_nil s hbuf]
    refine ⟨?_, ?_, ?_⟩
    · show setIdx s.memory MR_KBSR 0 MR_KBSR = 0
      rw [setIdx_self]
    · show setIdx s.memory MR_KBSR 0 MR_KBSR = 0
      rw [setIdx_self]
    · intro j hj
      show setIdx s.memory MR_KBSR 0 j = s.memory j
      rw [setIdx_ne _ _ _ _ hj]

/-- A state with the single pending input character `A`. -/
def csIn : VMState := { baseState with input_buffer := [65] }

/-! ## Claim C3: TRAP GETC -/

theorem execute_trap_getc_cons (t : VMState) (c : Nat) (rest : List Nat)
    (hbuf : t.input_buffer = c :: rest) :
    execute_trap t 0xF020 = some ({ t with
      reg := update_flags (setIdx (setIdx t.reg 7 (t.reg R_PC)) 0 c) 0
      input_buffer := rest }, TrapResult.cont) := by
  have h32 : (61472 : Nat) &&& 255 = 32 := by decide
  simp [execute_trap, h32, hbuf]

theorem execute_trap_getc_nil (t : VMState) (hbuf : t.input_buffer = []) :
    execute_trap t 0xF020
      = some ({ t with reg := setIdx t.reg 7 (t.reg R_PC) }, TrapResult.waitInput) := by
  have h32 : (61472 : Nat) &&& 255 = 32 := by decide
  simp [execute_trap, h32, hbuf]

/-- One full `step` at an (in-range, non-KBSR) PC holding `TRAP GETC`
with pending input: the front character is dequeued into R0 unmasked,
the flags update from R0, R7 gets the incremented PC and the step
continues. -/
theorem step_getc_cons (s : VMState)
    (hh : s.halted = false) (hw : s.wait_for_input = false)
    (hb : (s.breakpoints.contains (s.reg R_PC) && !s.step_mode) = false)
    (hpc : s.reg R_PC < 65536) (hk : s.reg R_PC ≠ MR_KBSR)
    (hm : s.memory (s.reg R_PC) = 0xF020)
    (c : Nat) (rest : List Nat) (hbuf : s.input_buffer = c :: rest) :
    step s = some ({ s with
      reg := update_flags (setIdx (setIdx (setIdx s.reg R_PC ((s.reg R_PC + 1) % 65536)) 7
        ((s.reg R_PC + 1) % 65536)) 0 c) 0
      input_buffer := rest }, true) := by
  have hread := mem_read_other s (s.reg R_PC) hpc hk
  have htrap := execute_trap_getc_cons
    { s with reg := setIdx s.reg R_PC ((s.reg R_PC + 1) % 65536) } c rest hbuf
  simp only [step, hh, hw, hb, Bool.or_self, Bool.false_eq_true, if_false, hread, hm] at htrap ⊢
  norm_num
  rw [htrap]
  simp [setIdx_self]

/-- One full `step` at TRAP GETC with an empty input buffer: R7 is still
clobbered with the incremented PC, the wait flag is raised, PC is moved
back onto the GETC, and the step reports it cannot continue. -/
theorem step_getc_nil (s : VMState)
    (hh : s.halted = false) (hw : s.wait_for_input = false)
    (hb : (s.breakpoints.contains (s.reg R_PC) && !s.step_mode) = false)
    (hpc : s.reg R_PC < 65536) (hk : s.reg R_PC ≠ MR_KBSR)
    (hm : s.memory (s.reg R_PC) = 0xF020) (hbuf : s.input_buffer = []) :
    step s = some ({ s with
      reg := setIdx (setIdx (setIdx s.reg R_PC ((s.reg R_PC + 1) % 65536)) 7
        ((s.reg R_PC + 1) % 65536)) R_PC (((s.reg R_PC + 1) % 65536 + 65535) % 65536)
      wait_for_input := true }, false) := by
  have hread := mem_read_other s (s.reg R_PC) hpc hk
  have htrap := execute_trap_getc_nil
    { s with reg := setIdx s.reg R_PC ((s.reg R_PC + 1) % 65536) } hbuf
  simp only [step, hh, hw, hb, Bool.or_self, Bool.false_eq_true, if_false, hread, hm] at htrap ⊢
  norm_num
  rw [htrap]
  simp [setIdx_self, setIdx_ne, R_PC]

/-- Claim C3 (amended): GETC with pending input dequeues the front
character code into R0 without masking (so the low 8 bits hold the
character and the high 8 bits are zero exactly when the code is below
256, which covers all byte-valued input) and COND updates from R0; with
an empty buffer the wait flag is raised, PC is decremented back onto the
GETC, and the step cannot continue. -/
theorem claim_C3_theorem (s : VMState)
    (hh : s.halted = false) (hw : s.wait_for_input = false)
    (hb : (s.breakpoints.contains (s.reg R_PC) && !s.step_mode) = false)
    (hpc : s.reg R_PC < 65536) (hk : s.reg R_PC ≠ MR_KBSR)
    (hm : s.memory (s.reg R_PC) = 0xF020) :
    (∀ c rest, s.input_buffer = c :: rest →
      (step s).map (fun p => (p.1.reg 0, p.1.reg R_COND, p.1.input_buffer, p.1.reg R_PC, p.2))
        = some (c, flagOf c, rest, (s.reg R_PC + 1) % 65536, true) ∧
      (c < 256 → c &&& 0xFF = c ∧ c >>> 8 = 0)) ∧
    (s.input_buffer = [] →
      (step s).map (fun p => (p.1.wait_for_input, p.1.reg R_PC, p.2))
        = some (true, s.reg R_PC, false)) := by
  constructor
  · intro c rest hbuf
    constructor
    · rw [step_getc_cons s hh hw hb hpc hk hm c rest hbuf]
      simp only [Option.map_some']
      refine congrArg some ?_
      have h09 : (0 : Nat) ≠ R_COND := by decide
      refine congrArg₂ _ ((update_flags_spec _ 0 c h09).2) (congrArg₂ _ ?_ (congrArg₂ _ rfl ?_))
      · exact (update_flags_spec _ 0 c h09).1
      · refine congrArg₂ _ ?_ rfl
        show update_flags (setIdx _ 0 c) 0 R_PC = (s.reg R_PC + 1) % 65536
        unfold update_flags
        rw [setIdx_ne _ _ _ _ (by decide : R_PC ≠ R_COND),
          setIdx_ne _ _ _ _ (by decide : R_PC ≠ (0 : Nat)),
          setIdx_ne _ _ _ _ (by decide : R_PC ≠ (7 : Nat)), setIdx_self]
    · intro hc
      constructor
      · have := Nat.and_pow_two_sub_one_eq_mod c 8
        norm_num at this
        omega
      · rw [Nat.shiftRight_eq_div_pow]
        omega
  · intro hbuf
    rw [step_getc_nil s hh hw hb hpc hk hm hbuf]
    simp only [Option.map_some']
    refine congrArg some (congrArg₂ _ rfl (congrArg₂ _ ?_ rfl))
    show setIdx _ R_PC (((s.reg R_PC + 1) % 65536 + 65535) % 65536) R_PC = s.reg R_PC
    rw [setIdx_self]
    omega

/-- A state about to execute `TRAP GETC` (word 0xF020) at 0x3000 with
one pending input character of code 256 (the first character outside the
byte range). -/
def csGetcWide : VMState :=
  { baseState with
    memory := fun i => if i = 0x3000 then 0xF020 else 0
    reg := fun i => if i = 8 then 0x3000 else if i = 9 then 2 else 0
    input_buffer := [256] }

/-- Claim C3 fails as stated: GETC stores the unmasked character code, so
a pending character of code 256 reaches R0 with its high 8 bits
non-zero. -/
theorem claim_C3_counterexample :
    (step csGetcWide).map (fun p => (p.1.reg 0, p.2)) = some (256, true) ∧
    (256 : Nat) >>> 8 ≠ 0 := by
  decide

/-- A state about to execute `TRAP GETC` at 0x3000 with the single
pending character `A`, and the same state with no input at all. -/
def csGetc : VMState :=
  { baseState with
    memory := fun i => if i = 0x3000 then 0xF020 else 0
    reg := fun i => if i = 8 then 0x3000 else if i = 9 then 2 else 0
    input_buffer := [65] }

/-- The empty-input variant of `csGetc`. -/
def csGetcEmpty : VMState := { csGetc with input_buffer := [] }

theorem claim_C3_witness :
    (step csGetc).map
      (fun p => (p.1.reg 0, p.1.reg R_COND, p.1.input_buffer, p.1.reg R_PC, p.2))
      = some (65, flagOf 65, [], 0x3001, true) ∧
    (step csGetcEmpty).map (fun p => (p.1.wait_for_input, p.1.reg R_PC, p.2))
      = some (true, 0x3000, false) := by
  have h1 := (claim_C3_theorem csGetc rfl rfl rfl (by decide) (by decide) (by decide)).1
    65 [] rfl
  have h2 := (claim_C3_theorem csGetcEmpty rfl rfl rfl (by decide) (by decide) (by decide)).2
    rfl
  constructor
  · have : csGetc.reg R_PC = 0x3000 := by decide
    rw [this] at h1
    exact h1.1
  · have : csGetcEmpty.reg R_PC = 0x3000 := by decide
    rw [this] at h2
    exact h2

theorem claim_C2_witness :
    (mem_read csIn MR_KBSR).1.memory MR_KBDR = 65 ∧
    (mem_read csIn MR_KBSR).2 = 32768 ∧
    (mem_read csJsr MR_KBSR).2 = 0 ∧
    mem_read csIn 0xFE02 = (csIn, csIn.memory 0xFE02) :=
  ⟨((claim_C2 csIn).1 65 [] rfl).2.2.1, ((claim_C2 csIn).1 65 [] rfl).1,
    ((claim_C2 csJsr).2.1 rfl).1, (claim_C2 csIn).2.2 0xFE02 (by decide) (by decide)⟩

/-! ## Claim C4: bare BR -/

theorem to_twos_complement_lt (v : Int) (bits : Nat) :
    to_twos_complement v bits < 2 ^ bits := by
  unfold to_twos_complement
  have hpos : (0 : Int) < 2 ^ bits := by positivity
  have h1 := Int.emod_nonneg (if v < 0 then (2 : Int) ^ bits + v else v)
    (by positivity : ((2 : Int) ^ bits) ≠ 0)
  have h2 := Int.emod_lt_of_pos (if v < 0 then (2 : Int) ^ bits + v else v) hpos
  have h4 : (((2 : Nat) ^ bits : Nat) : Int) = (2 : Int) ^ bits := by push_cast; ring
  omega

set_option maxRecDepth 8000 in
theorem lor_3584 : ∀ m, m < 512 → 3584 ||| m = 3584 + m := by decide

/-- Claim C4 (amended): in draft 1 (`assemble.py`) a bare `BR` assembles
to the same word as `BRnzp` with the same target, with condition bits
11-9 all set; in draft 2 (`lc3_assembler.py`) the condition letters are
matched in lowercase against the opcode and no default is applied, so a
bare `BR` gets condition mask 0. -/
theorem claim_C4_theorem :
    (∀ offset : Int, assemble_br "BR" offset = assemble_br "BRnzp" offset) ∧
    (∀ offset w, assemble_br "BR" offset = some w → (w >>> 9) &&& 7 = 7) ∧
    (∀ labelAddr pc, ((assembleLine2Br "BR" labelAddr pc) >>> 9) &&& 7 = 0) := by
  have hN1 : strContains (strUpper "BR") 'N' = false := by decide
  have hZ1 : strContains (strUpper "BR") 'Z' = false := by decide
  have hP1 : strContains (strUpper "BR") 'P' = false := by decide
  have hN2 : strContains (strUpper "BRnzp") 'N' = true := by decide
  have hZ2 : strContains (strUpper "BRnzp") 'Z' = true := by decide
  have hP2 : strContains (strUpper "BRnzp") 'P' = true := by decide
  refine ⟨?_, ?_, ?_⟩
  · intro off
    simp [assemble_br, hN1, hZ1, hP1, hN2, hZ2, hP2]
  · intro off w h
    simp only [assemble_br, hN1, hZ1, hP1, if_false, if_true, reduceIte] at h
    by_cases hr : check_range off 9 true
    · rw [if_pos hr] at h
      norm_num at h
      have hm : (off % 512).toNat < 512 := by
        have h1 := Int.emod_nonneg off (by norm_num : (512 : Int) ≠ 0)
        have h2 := Int.emod_lt_of_pos off (by norm_num : (0 : Int) < 512)
        omega
      have h1 : ((1 <<< 11) ||| (1 <<< 10)) ||| (1 <<< 9) = 3584 := by decide
      rw [← h, h1, lor_3584 _ hm, Nat.shiftRight_eq_div_pow]
      have h512 : (3584 + (off % 512).toNat) / 2 ^ 9 = 7 := by
        norm_num
        omega
      rw [h512]
      decide
    · rw [if_neg hr] at h
      exact absurd h (by simp)
  · intro labelAddr pc
    have hn : strContains "BR" 'n' = false := by decide
    have hz : strContains "BR" 'z' = false := by decide
    have hp : strContains "BR" 'p' = false := by decide
    simp only [assembleLine2Br, hn, hz, hp, if_false, reduceIte]
    norm_num
    rw [Nat.shiftRight_eq_div_pow]
    have ht := to_twos_complement_lt ((labelAddr : Int) - ((pc : Int) + 1)) 9
    norm_num at ht
    have h0 : to_twos_complement ((labelAddr : Int) - ((pc : Int) + 1)) 9 / 2 ^ 9 = 0 := by
      norm_num
      omega
    rw [h0]
    decide

/-- Claim C4 fails as stated: draft 2 assembles a bare `BR` to a word
whose condition bits 11-9 are 0, not 7 (here with a target two words
ahead, so the offset field is 1). -/
theorem claim_C4_counterexample :
    assembleLine2Br "BR" 0x3002 0x3000 = 1 ∧
    ((assembleLine2Br "BR" 0x3002 0x3000) >>> 9) &&& 7 ≠ 7 := by
  decide

theorem claim_C4_witness :
    ((3585 : Nat) >>> 9) &&& 7 = 7 ∧ assemble_br "BR" (-3) = assemble_br "BRnzp" (-3) :=
  ⟨claim_C4_theorem.2.1 1 3585 (by decide), claim_C4_theorem.1 (-3)⟩

/-! ## Claim C5: imm5 range checking -/

/-- Claim C5 (amended): draft 1 accepts an ADD/AND immediate exactly when
it lies in [-16, 15] and otherwise raises a fatal assembly error; draft 2
performs no range check and silently masks any immediate to its low 5
bits. -/
theorem claim_C5_theorem :
    (∀ dr sr1 v, (assemble_add dr sr1 (Operand.immediate v)).isSome = true
      ↔ (-16 ≤ v ∧ v ≤ 15)) ∧
    (∀ dr sr1 v, (assemble_and dr sr1 (Operand.immediate v)).isSome = true
      ↔ (-16 ≤ v ∧ v ≤ 15)) ∧
    (∀ dr sr1 v, assembleLine2AddAnd "ADD" dr sr1 (Operand.immediate v)
        = (1 <<< 12) ||| (dr <<< 9) ||| (sr1 <<< 6) ||| (1 <<< 5) ||| to_twos_complement v 5 ∧
      to_twos_complement v 5 < 32) ∧
    (∀ dr sr1 v, assembleLine2AddAnd "AND" dr sr1 (Operand.immediate v)
        = (5 <<< 12) ||| (dr <<< 9) ||| (sr1 <<< 6) ||| (1 <<< 5) ||| to_twos_complement v 5) := by
  have hc : ∀ v : Int, check_range v 5 true = (decide (-16 ≤ v) && decide (v ≤ 15)) := by
    intro v
    unfold check_range
    norm_num
  refine ⟨?_, ?_, ?_, ?_⟩
  · intro dr sr1 v
    show (if check_range v 5 true then
        some ((1 <<< 12) ||| (dr <<< 9) ||| (sr1 <<< 6) ||| (1 <<< 5) ||| (v % 32).toNat)
      else none).isSome = true ↔ (-16 ≤ v ∧ v ≤ 15)
    rw [hc]
    by_cases h16 : -16 ≤ v ∧ v ≤ 15
    · rw [if_pos (by simp [h16.1, h16.2])]
      simp [h16.1, h16.2]
    · rw [if_neg (by simpa using h16)]
      simpa using h16
  · intro dr sr1 v
    show (if check_range v 5 true then
        some ((5 <<< 12) ||| (dr <<< 9) ||| (sr1 <<< 6) ||| (1 <<< 5) ||| (v % 32).toNat)
      else none).isSome = true ↔ (-16 ≤ v ∧ v ≤ 15)
    rw [hc]
    by_cases h16 : -16 ≤ v ∧ v ≤ 15
    · rw [if_pos (by simp [h16.1, h16.2])]
      simp [h16.1, h16.2]
    · rw [if_neg (by simpa using h16)]
      simpa using h16
  · intro dr sr1 v
    constructor
    · simp [assembleLine2AddAnd]
    · have := to_twos_complement_lt v 5
      norm_num at this
      exact this
  · intro dr sr1 v
    simp [assembleLine2AddAnd]

/-- Claim C5 fails as stated: draft 1 rejects the out-of-range immediates
16 and -17 (fatal error = `none`), but draft 2 silently encodes them,
producing ADD R0,R0,#-16 for `#16` and AND R0,R0,#15 for `#-17`. -/
theorem claim_C5_counterexample :
    assemble_add 0 0 (Operand.immediate 16) = none ∧
    assemble_and 0 0 (Operand.immediate (-17)) = none ∧
    assembleLine2AddAnd "ADD" 0 0 (Operand.immediate 16) = 0x1030 ∧
    assembleLine2AddAnd "AND" 0 0 (Operand.immediate (-17)) = 0x502F := by
  decide

theorem claim_C5_witness :
    (assemble_add 3 2 (Operand.immediate 15)).isSome = true ∧
    (assemble_and 3 2 (Operand.immediate (-16))).isSome = true ∧
    to_twos_complement 7 5 < 32 :=
  ⟨(claim_C5_theorem.1 3 2 15).mpr (by norm_num),
    (claim_C5_theorem.2.1 3 2 (-16)).mpr (by norm_num),
    (claim_C5_theorem.2.2.1 0 0 7).2⟩

/-! ## Claims C9 and C6: the PUTS and PUTSP scans -/

/-- If some address at wrap-distance below `fuel` holds a zero word, the
PUTS scan succeeds with strictly fewer characters than `fuel`. -/
theorem putsScan_terminates (mem : Nat → Nat) :
    ∀ fuel addr, addr < 65536 → (∃ k, k < fuel ∧ mem ((addr + k) % 65536) = 0) →
      ∃ out, putsScan mem addr fuel = some out ∧ out.length < fuel := by
  intro fuel
  induction fuel with
  | zero =>
      rintro addr _ ⟨k, hk, _⟩
      omega
  | succ f ih =>
      rintro addr ha ⟨k, hk, hz⟩
      by_cases h0 : mem addr = 0
      · exact ⟨[], by simp [putsScan, h0], by simp⟩
      · have hk0 : k ≠ 0 := by
          intro hes
          subst hes
          rw [Nat.add_zero, Nat.mod_eq_of_lt ha] at hz
          exact h0 hz
        obtain ⟨k', rfl⟩ : ∃ k', k = k' + 1 := ⟨k - 1, by omega⟩
        have ha' : (addr + 1) % 65536 < 65536 := Nat.mod_lt _ (by norm_num)
        have hz' : mem (((addr + 1) % 65536 + k') % 65536) = 0 := by
          rw [Nat.mod_add_mod]
          rw [show addr + 1 + k' = addr + (k' + 1) from by ring]
          exact hz
        obtain ⟨out, hout, hlen⟩ := ih ((addr + 1) % 65536) ha' ⟨k', by omega, hz'⟩
        refine ⟨(mem addr &&& 0xFF) :: out, ?_, by simp; omega⟩
        simp [putsScan, h0, hout]

/-- With no zero word anywhere in memory, the PUTS scan runs out of any
amount of fuel: the Python loop never terminates. -/
theorem putsScan_none (mem : Nat → Nat) (hnz : ∀ i, i < 65536 → mem i ≠ 0) :
    ∀ fuel addr, addr < 65536 → putsScan mem addr fuel = none := by
  intro fuel
  induction fuel with
  | zero => intro addr _; rfl
  | succ f ih =>
      intro addr ha
      simp [putsScan, hnz addr ha, ih ((addr + 1) % 65536) (Nat.mod_lt _ (by norm_num))]

/-- Same termination statement for the PUTSP scan. -/
theorem putspScan_terminates (mem : Nat → Nat) :
    ∀ fuel addr, addr < 65536 → (∃ k, k < fuel ∧ mem ((addr + k) % 65536) = 0) →
      ∃ out, putspScan mem addr fuel = some out := by
  intro fuel
  induction fuel with
  | zero =>
      rintro addr _ ⟨k, hk, _⟩
      omega
  | succ f ih =>
      rintro addr ha ⟨k, hk, hz⟩
      by_cases h0 : mem addr = 0
      · exact ⟨[], by simp [putspScan, h0]⟩
      · have hk0 : k ≠ 0 := by
          intro hes
          subst hes
          rw [Nat.add_zero, Nat.mod_eq_of_lt ha] at hz
          exact h0 hz
        obtain ⟨k', rfl⟩ : ∃ k', k = k' + 1 := ⟨k - 1, by omega⟩
        have ha' : (addr + 1) % 65536 < 65536 := Nat.mod_lt _ (by norm_num)
        have hz' : mem (((addr + 1) % 65536 + k') % 65536) = 0 := by
          rw [Nat.mod_add_mod]
          rw [show addr + 1 + k' = addr + (k' + 1) from by ring]
          exact hz
        obtain ⟨out, hout⟩ := ih ((addr + 1) % 65536) ha' ⟨k', by omega, hz'⟩
        refine ⟨((if mem addr &&& 0xFF ≠ 0 then [mem addr &&& 0xFF] else []) ++
          (if (mem addr >>> 8) &&& 0xFF ≠ 0 then [(mem addr >>> 8) &&& 0xFF] else [])) ++ out, ?_⟩
        simp [putspScan, h0, hout]

/-- Starting anywhere, a zero word somewhere in the 16-bit address space
is a zero word at some wrap-distance below `2 ^ 16`. -/
theorem zero_word_within (mem : Nat → Nat) (addr i : Nat) (ha : addr < 65536)
    (hi : i < 65536) (hz : mem i = 0) :
    ∃ k, k < 65536 ∧ mem ((addr + k) % 65536) = 0 := by
  refine ⟨(i + 65536 - addr) % 65536, Nat.mod_lt _ (by norm_num), ?_⟩
  have he : (addr + (i + 65536 - addr) % 65536) % 65536 = i := by omega
  rw [he]
  exact hz

theorem execute_trap_puts (t : VMState) (out : List Nat)
    (h : putsScan t.memory (t.reg 0) 65536 = some out) :
    execute_trap t 0xF022 = some ({ t with
      reg := setIdx t.reg 7 (t.reg R_PC)
      output_buffer := t.output_buffer ++ out }, TrapResult.cont) := by
  have h34 : (61474 : Nat) &&& 255 = 34 := by decide
  simp [execute_trap, h34, setIdx, h]

theorem execute_trap_puts_none (t : VMState)
    (h : putsScan t.memory (t.reg 0) 65536 = none) :
    execute_trap t 0xF022 = none := by
  have h34 : (61474 : Nat) &&& 255 = 34 := by decide
  simp [execute_trap, h34, setIdx, h]

theorem execute_trap_putsp (t : VMState) (out : List Nat)
    (h : putspScan t.memory (t.reg 0) 65536 = some out) :
    execute_trap t 0xF024 = some ({ t with
      reg := setIdx t.reg 7 (t.reg R_PC)
      output_buffer := t.output_buffer ++ out }, TrapResult.cont) := by
  have h36 : (61476 : Nat) &&& 255 = 36 := by decide
  simp [execute_trap, h36, setIdx, h]

/-- Claim C9: with the scan start in range, TRAP PUTS terminates whenever
some memory word is zero, appending at most `2 ^ 16` characters; with
every memory word non-zero the scan exhausts any fuel (the Python loop
never terminates, recorded as `none`). -/
theorem claim_C9_theorem (s : VMState) (hr0 : s.reg 0 < 65536) :
    ((∃ i, i < 65536 ∧ s.memory i = 0) →
      ∃ out, execute_trap s 0xF022
          = some ({ s with
              reg := setIdx s.reg 7 (s.reg R_PC)
              output_buffer := s.output_buffer ++ out }, TrapResult.cont) ∧
        out.length ≤ 65536) ∧
    ((∀ i, i < 65536 → s.memory i ≠ 0) →
      execute_trap s 0xF022 = none ∧
      ∀ fuel, putsScan s.memory (s.reg 0) fuel = none) := by
  constructor
  · rintro ⟨i, hi, hz⟩
    obtain ⟨k, hk, hzk⟩ := zero_word_within s.memory (s.reg 0) i hr0 hi hz
    obtain ⟨out, hout, hlen⟩ :=
      putsScan_terminates s.memory 65536 (s.reg 0) hr0 ⟨k, hk, hzk⟩
    exact ⟨out, execute_trap_puts s out hout, by omega⟩
  · intro hnz
    have hnone := putsScan_none s.memory hnz
    exact ⟨execute_trap_puts_none s (hnone 65536 (s.reg 0) hr0),
      fun fuel => hnone fuel (s.reg 0) hr0⟩

theorem claim_C9_witness :
    ∃ out, execute_trap baseState 0xF022
        = some ({ baseState with
            reg := setIdx baseState.reg 7 (baseState.reg R_PC)
            output_buffer := baseState.output_buffer ++ out }, TrapResult.cont) ∧
      out.length ≤ 65536 :=
  (claim_C9_theorem baseState (by decide)).1 ⟨0, by decide, rfl⟩

/-- Claim C6 (amended): TRAP PUTSP scans from R0 to the first zero word;
each non-zero word contributes its low byte then its high byte, but a
zero byte is never emitted, so a word with exactly one set byte (whether
the low or the high one) emits exactly one byte. -/
theorem claim_C6_theorem (s : VMState) (hr0 : s.reg 0 < 65536)
    (hz : ∃ i, i < 65536 ∧ s.memory i = 0) :
    (∃ out, execute_trap s 0xF024
        = some ({ s with
            reg := setIdx s.reg 7 (s.reg R_PC)
            output_buffer := s.output_buffer ++ out }, TrapResult.cont) ∧
      putspScan s.memory (s.reg 0) 65536 = some out) ∧
    (∀ (mem : Nat → Nat) (a f : Nat) (out : List Nat), mem a ≠ 0 →
      putspScan mem a (f + 1) = some out →
      ∃ rest, putspScan mem ((a + 1) % 65536) f = some rest ∧
        out = ((if mem a &&& 0xFF ≠ 0 then [mem a &&& 0xFF] else []) ++
          (if (mem a >>> 8) &&& 0xFF ≠ 0 then [(mem a >>> 8) &&& 0xFF] else [])) ++ rest) ∧
    (∀ (mem : Nat → Nat) (a f : Nat), mem a = 0 → putspScan mem a (f + 1) = some []) := by
  refine ⟨?_, ?_, ?_⟩
  · obtain ⟨i, hi, hzi⟩ := hz
    obtain ⟨k, hk, hzk⟩ := zero_word_within s.memory (s.reg 0) i hr0 hi hzi
    obtain ⟨out, hout⟩ := putspScan_terminates s.memory 65536 (s.reg 0) hr0 ⟨k, hk, hzk⟩
    exact ⟨out, execute_trap_putsp s out hout, hout⟩
  · intro mem a f out hne hsc
    rw [show putspScan mem a (f + 1)
        = if mem a = 0 then some []
          else Option.map (fun o =>
            ((if mem a &&& 0xFF ≠ 0 then [mem a &&& 0xFF] else []) ++
              (if (mem a >>> 8) &&& 0xFF ≠ 0 then [(mem a >>> 8) &&& 0xFF] else [])) ++ o)
            (putspScan mem ((a + 1) % 65536) f) from rfl, if_neg hne] at hsc
    cases hrec : putspScan mem ((a + 1) % 65536) f with
    | none =>
        rw [hrec] at hsc
        exact absurd hsc (by simp)
    | some rest =>
        rw [hrec] at hsc
        simp only [Option.map_some', Option.some_inj] at hsc
        exact ⟨rest, rfl, hsc.symm⟩
  · intro mem a f h0
    simp [putspScan, h0]

/-- A state whose word at address 0 is 0x0041 (low byte only) followed by
a zero word, with R0 = 0. -/
def csPutsp : VMState :=
  { baseState with memory := fun i => if i = 0 then 0x41 else 0 }

/-- Claim C6 fails as stated: for the word 0x0041 the code emits the
single byte 0x41 (the zero high byte is skipped), while the claimed rule
— low byte then high byte, with an exception only for high-byte-only
words — would emit 0x41 followed by 0x00. -/
theorem claim_C6_counterexample :
    (execute_trap csPutsp 0xF024).map (fun p => p.1.output_buffer) = some [0x41] ∧
    putspClaimScan csPutsp.memory 0 65536 = some [0x41, 0] := by
  decide

theorem claim_C6_witness :
    ∃ out, execute_trap csPutsp 0xF024
        = some ({ csPutsp with
            reg := setIdx csPutsp.reg 7 (csPutsp.reg R_PC)
            output_buffer := csPutsp.output_buffer ++ out }, TrapResult.cont) ∧
      putspScan csPutsp.memory (csPutsp.reg 0) 65536 = some out :=
  (claim_C6_theorem csPutsp (by decide) ⟨1, by decide, by decide⟩).1

/-! ## Claim C10: the program loader -/

theorem bytesToWords_length : ∀ l : List Nat, (bytesToWords l).length = l.length / 2
  | [] => by simp [bytesToWords]
  | [b] => by simp [bytesToWords]
  | b1 :: b2 :: rest => by
      have ih := bytesToWords_length rest
      simp [bytesToWords, ih]
      omega

theorem bytesToWords_getD : ∀ (l : List Nat) (k : Nat), k < l.length / 2 →
    (bytesToWords l).getD k 0 = l.getD (2 * k) 0 * 256 + l.getD (2 * k + 1) 0
  | [], k, h => by
      have hl : ([] : List Nat).length = 0 := rfl
      omega
  | [b], k, h => by
      have hl : ([b] : List Nat).length = 1 := rfl
      omega
  | b1 :: b2 :: rest, 0, h => by simp [bytesToWords]
  | b1 :: b2 :: rest, k + 1, h => by
      have hk : k < rest.length / 2 := by
        have : (b1 :: b2 :: rest).length = rest.length + 2 := by simp
        omega
      have ih := bytesToWords_getD rest k hk
      have e1 : 2 * (k + 1) = 2 * k + 1 + 1 := by ring
      have e2 : 2 * (k + 1) + 1 = 2 * k + 1 + 1 + 1 := by ring
      simp only [bytesToWords, List.getD_cons_succ, e1, e2]
      exact ih

theorem loadWords_untouched : ∀ (ws : List Nat) (mem : Nat → Nat) (origin i j : Nat),
    (j < origin + i ∨ origin + i + ws.length ≤ j ∨ 65536 ≤ j) →
    loadWords mem origin i ws j = mem j
  | [], _, _, _, _, _ => rfl
  | w :: rest, mem, origin, i, j, h => by
      have hl : (w :: rest).length = rest.length + 1 := rfl
      unfold loadWords
      by_cases hb : 65536 ≤ origin + i
      · rw [if_pos hb]
      · rw [if_neg hb]
        have hrec := loadWords_untouched rest (setIdx mem (origin + i) w) origin (i + 1) j
          (by omega)
        rw [hrec, setIdx_ne _ _ _ _ (by omega : j ≠ origin + i)]

theorem loadWords_written : ∀ (ws : List Nat) (mem : Nat → Nat) (origin i k : Nat),
    k < ws.length → origin + i + k < 65536 →
    loadWords mem origin i ws (origin + i + k) = ws.getD k 0
  | [], _, _, _, k, hk, _ => by simp at hk
  | w :: rest, mem, origin, i, 0, hk, hlt => by
      unfold loadWords
      rw [if_neg (by omega)]
      have huntouched := loadWords_untouched rest (setIdx mem (origin + i) w) origin (i + 1)
        (origin + i + 0) (Or.inl (by omega))
      rw [huntouched]
      rw [show origin + i + 0 = origin + i from by omega, setIdx_self]
      rfl
  | w :: rest, mem, origin, i, k + 1, hk, hlt => by
      have hl : (w :: rest).length = rest.length + 1 := rfl
      unfold loadWords
      rw [if_neg (by omega)]
      have ih := loadWords_written rest (setIdx mem (origin + i) w) origin (i + 1) k
        (by omega) (by omega)
      rw [show origin + i + (k + 1) = origin + (i + 1) + k from by ring, ih]
      simp [List.getD_cons_succ]

/-- Claim C10: fewer than two bytes fails, returning the state unchanged
with `False`; otherwise loading succeeds, PC becomes the big-endian
origin from the first two bytes, exactly `(len - 2) / 2` big-endian words
are available (a trailing odd byte is dropped), each word `k` lands at
`origin + k` when that address is below `2 ^ 16`, and all other memory is
untouched. -/
theorem claim_C10_theorem (s : VMState) (data : List Nat) :
    (data.length < 2 → load_program s data = (s, false)) ∧
    (∀ b0 b1 rest, data = b0 :: b1 :: rest →
      (load_program s data).2 = true ∧
      (load_program s data).1.reg R_PC = b0 * 256 + b1 ∧
      (bytesToWords rest).length = (data.length - 2) / 2 ∧
      (∀ k, k < (data.length - 2) / 2 → b0 * 256 + b1 + k < 65536 →
        (load_program s data).1.memory (b0 * 256 + b1 + k)
          = rest.getD (2 * k) 0 * 256 + rest.getD (2 * k + 1) 0) ∧
      (∀ j, (j < b0 * 256 + b1 ∨ b0 * 256 + b1 + (data.length - 2) / 2 ≤ j ∨ 65536 ≤ j) →
        (load_program s data).1.memory j = s.memory j) ∧
      (load_program s data).1.input_buffer = s.input_buffer ∧
      (load_program s data).1.breakpoints = s.breakpoints) := by
  constructor
  · intro hlen
    match data, hlen with
    | [], _ => rfl
    | [b], _ => rfl
    | b0 :: b1 :: rest, hlen =>
        simp at hlen
        omega
  · intro b0 b1 rest hdata
    subst hdata
    have hlen2 : (b0 :: b1 :: rest).length - 2 = rest.length := by simp
    have hwlen : (bytesToWords rest).length = rest.length / 2 := bytesToWords_length rest
    refine ⟨rfl, ?_, ?_, ?_, ?_, rfl, rfl⟩
    · show setIdx s.reg R_PC (b0 * 256 + b1) R_PC = b0 * 256 + b1
      rw [setIdx_self]
    · rw [hwlen, hlen2]
    · intro k hk hlt
      rw [hlen2] at hk
      show loadWords s.memory (b0 * 256 + b1) 0 (bytesToWords rest) (b0 * 256 + b1 + k)
        = rest.getD (2 * k) 0 * 256 + rest.getD (2 * k + 1) 0
      have hw := loadWords_written (bytesToWords rest) s.memory (b0 * 256 + b1) 0 k
        (by omega) (by omega)
      rw [show b0 * 256 + b1 + 0 + k = b0 * 256 + b1 + k from by omega] at hw
      rw [hw]
      exact bytesToWords_getD rest k (by omega)
    · intro j hj
      rw [hlen2] at hj
      show loadWords s.memory (b0 * 256 + b1) 0 (bytesToWords rest) j = s.memory j
      exact loadWords_untouched (bytesToWords rest) s.memory (b0 * 256 + b1) 0 j (by omega)

theorem claim_C10_witness :
    load_program baseState [7] = (baseState, false) ∧
    (load_program baseState [48, 0, 171, 205, 255]).2 = true :=
  ⟨(claim_C10_theorem baseState [7]).1 (by decide),
    ((claim_C10_theorem baseState [48, 0, 171, 205, 255]).2 48 0 [171, 205, 255] rfl).1⟩

end LC3
